import Mathlib

/-!
Verification development for the tabular query-interpretation engine of the
datasheet-ai repository (`processExcelQuery` / `generateSummary` in the main
application source file).  The engine takes a free-text query and an in-memory
table (an ordered list of rows, each an ordered association of column names to
cell values) and produces a filtered / sorted / summarized result.

The definitions below are a shallow embedding of that source code.  JavaScript
runtime primitives used by the source (`String(v)`, `Number(v)`,
`String.prototype.includes`, `toLowerCase`, `toFixed`, stable `Array.sort`)
are modelled explicitly; cell numbers are modelled as rationals.
-/

namespace DatasheetAI

/-- An exact rational number as a numerator/denominator pair (denominator
positive for every value this development constructs; fractions are not
normalized, and all arithmetic below is the usual cross-multiplication
arithmetic, which is representation-correct for positive denominators).
JavaScript numbers are modelled by these exact rationals: every numeric value
appearing in the program's data and claims is exactly representable, so
float rounding never matters. -/
structure Frac where
  num : Int
  den : Nat
deriving DecidableEq

namespace Frac

/-- Embed a natural number. -/
def ofNat (n : Nat) : Frac := ⟨n, 1⟩

/-- Embed an integer. -/
def ofInt (i : Int) : Frac := ⟨i, 1⟩

/-- Negation. -/
def neg (a : Frac) : Frac := ⟨-a.num, a.den⟩

/-- Addition. -/
def add (a b : Frac) : Frac := ⟨a.num * b.den + b.num * a.den, a.den * b.den⟩

/-- Subtraction. -/
def sub (a b : Frac) : Frac := add a (neg b)

/-- Multiplication. -/
def mul (a b : Frac) : Frac := ⟨a.num * b.num, a.den * b.den⟩

/-- Division (the divisor's sign moves to the numerator so the denominator
stays a natural number; division by zero is never reached by the source). -/
def div (a b : Frac) : Frac :=
  match b.num with
  | Int.ofNat n => ⟨a.num * b.den, a.den * n⟩
  | Int.negSucc m => ⟨-(a.num * b.den), a.den * (m + 1)⟩

/-- Order test `a ≤ b` by cross multiplication. -/
def ble (a b : Frac) : Bool := a.num * (b.den : Int) ≤ b.num * (a.den : Int)

/-- Strict negativity (`a < 0`), as used on comparator results. -/
def isNeg (a : Frac) : Bool := a.num < 0

/-- `Math.min` of two values. -/
def fmin (a b : Frac) : Frac := if ble a b then a else b

/-- `Math.max` of two values. -/
def fmax (a b : Frac) : Frac := if ble a b then b else a

/-- Absolute value. -/
def fabs (a : Frac) : Frac := ⟨(a.num.natAbs : Int), a.den⟩

/-- Floor of a non-negative fraction, as a natural number. -/
def floorNat (a : Frac) : Nat := a.num.toNat / a.den

end Frac

/-- A cell value as produced by the spreadsheet-to-JSON decoder: a string, a
number, a boolean, or absent (a missing key, JavaScript `undefined`; the
source's extra `null` check is also covered by this constructor). -/
inductive Value where
  | str (s : String)
  | num (q : Frac)
  | boolV (b : Bool)
  | absent
deriving DecidableEq

/-- A row is an ordered association list from column names to cell values,
modelling a JavaScript object (string keys in insertion order). -/
abbrev Row := List (String × Value)

/-- JavaScript property access `row[col]`: the first binding of the key, or
`undefined` (here `Value.absent`) when the key is missing. -/
def jsGet (row : Row) (col : String) : Value :=
  match row.find? (fun kv => kv.1 == col) with
  | some kv => kv.2
  | none => Value.absent

/-- JavaScript `String(v)`.  `String(undefined) = "undefined"`, booleans print
as `true`/`false`.  Number-to-string formatting is only ever applied by the
claims to integral values, where JavaScript prints the plain decimal integer;
non-integral rationals (not representable by any claim input) are printed as
`num/den`. -/
def Value.toText : Value → String
  | .str s => s
  | .num q => if q.den = 1 then toString q.num else toString q.num ++ "/" ++ toString q.den
  | .boolV b => if b then "true" else "false"
  | .absent => "undefined"

/-- JavaScript `toLowerCase`, modelled character-wise (ASCII-faithful, which
covers every string the source and claims manipulate). -/
def jsToLower (s : String) : String := String.mk (s.data.map Char.toLower)

/-- `charsStartsWith s p` is true when `p` is a prefix of `s`. -/
def charsStartsWith : List Char → List Char → Bool
  | _, [] => true
  | [], _ :: _ => false
  | c :: cs, p :: ps => c == p && charsStartsWith cs ps

/-- `charsContains s p` is true when `p` occurs contiguously inside `s`. -/
def charsContains (s p : List Char) : Bool :=
  match s with
  | [] => charsStartsWith [] p
  | c :: cs => charsStartsWith (c :: cs) p || charsContains cs p

/-- JavaScript `s.includes(pat)`: substring containment. -/
def jsIncludes (s pat : String) : Bool := charsContains s.data pat.data

/-- JavaScript `s.startsWith(pat)` (used only to state properties about the
produced summary strings). -/
def jsStartsWith (s pat : String) : Bool := charsStartsWith s.data pat.data

/-- The numeric value of a digit string (all characters assumed digits). -/
def natOfDigits (cs : List Char) : Nat :=
  cs.foldl (fun a c => a * 10 + (c.toNat - 48)) 0

/-- JavaScript `Number(s)` on a string, returning `none` for `NaN`.
Whitespace is trimmed; the empty string converts to `0`; an optionally signed
decimal literal (digits with an optional fractional part) converts to its
value; anything else is `NaN`.  (The hexadecimal / exponent / `Infinity`
literal forms accepted by JavaScript never arise in this program's data and
are conservatively mapped to `NaN`.) -/
def jsStringToNumber (s : String) : Option Frac :=
  let cs := ((s.data.dropWhile Char.isWhitespace).reverse.dropWhile Char.isWhitespace).reverse
  if cs.isEmpty then some (Frac.ofNat 0)
  else
    let signBody : Frac × List Char :=
      match cs with
      | '-' :: r => (Frac.ofInt (-1), r)
      | '+' :: r => (Frac.ofNat 1, r)
      | r => (Frac.ofNat 1, r)
    let sign := signBody.1
    let body := signBody.2
    let intPart := body.takeWhile Char.isDigit
    let rest := body.dropWhile Char.isDigit
    match rest with
    | [] =>
      if intPart.isEmpty then none
      else some (Frac.mul sign (Frac.ofNat (natOfDigits intPart)))
    | '.' :: fr =>
      let fracPart := fr.takeWhile Char.isDigit
      let rest2 := fr.dropWhile Char.isDigit
      if rest2.isEmpty = false then none
      else if intPart.isEmpty && fracPart.isEmpty then none
      else some (Frac.mul sign (Frac.add (Frac.ofNat (natOfDigits intPart))
        (Frac.div (Frac.ofNat (natOfDigits fracPart)) (Frac.ofNat (10 ^ fracPart.length)))))
    | _ => none

/-- JavaScript `Number(v)` on a cell value, returning `none` for `NaN`:
numbers convert to themselves, booleans to 0/1, `undefined` to `NaN`, strings
via `jsStringToNumber`. -/
def jsToNumber : Value → Option Frac
  | .num q => some q
  | .str s => jsStringToNumber s
  | .boolV b => some (if b then Frac.ofNat 1 else Frac.ofNat 0)
  | .absent => none

/-- Two-character zero padding for the fractional part of `toFixed(2)`. -/
def padTwo (n : Nat) : String := if n < 10 then "0" ++ toString n else toString n

/-- JavaScript `x.toFixed(2)` on a rational (rounding half away from zero;
every value the claims exercise is exact at two decimals, so the tie-breaking
mode is immaterial). -/
def qToFixed2 (q : Frac) : String :=
  let a : Frac := Frac.add (Frac.mul (Frac.fabs q) (Frac.ofNat 100)) ⟨1, 2⟩
  let scaled : Nat := Frac.floorNat a
  (if Frac.isNeg q then "-" else "") ++ toString (scaled / 100) ++ "." ++ padTwo (scaled % 100)

/-- JavaScript `x.toFixed(1)` on a rational. -/
def qToFixed1 (q : Frac) : String :=
  let a : Frac := Frac.add (Frac.mul (Frac.fabs q) (Frac.ofNat 10)) ⟨1, 2⟩
  let scaled : Nat := Frac.floorNat a
  (if Frac.isNeg q then "-" else "") ++ toString (scaled / 10) ++ "." ++ toString (scaled % 10)

/-- Stable insertion of `x` into `l`: `x` goes before the first element `y`
with `lt x y`, hence after every element it ties with. -/
def stableInsert {α : Type} (lt : α → α → Bool) (x : α) : List α → List α
  | [] => [x]
  | y :: ys => if lt x y then x :: y :: ys else y :: stableInsert lt x ys

/-- Stable sort (insertion sort), modelling JavaScript's stable `Array.sort`
with comparator `c`: `lt a b` stands for `c(a, b) < 0`. -/
def stableSort {α : Type} (lt : α → α → Bool) (l : List α) : List α :=
  l.foldl (fun acc x => stableInsert lt x acc) []

/-- Join a list of strings with a separator, modelling `Array.join`. -/
def joinWith (sep : String) : List String → String
  | [] => ""
  | [x] => x
  | x :: y :: rest => x ++ sep ++ joinWith sep (y :: rest)

/-! ## The intent classifier -/

/-- `isFilterQuery` from the source: the lower-cased query contains one of the
filter keywords. -/
def isFilterQuery (queryLower : String) : Bool :=
  jsIncludes queryLower "filter" ||
  jsIncludes queryLower "show" ||
  jsIncludes queryLower "only" ||
  jsIncludes queryLower "which" ||
  jsIncludes queryLower "where"

/-- `isSortQuery` from the source. -/
def isSortQuery (queryLower : String) : Bool :=
  jsIncludes queryLower "sort" ||
  jsIncludes queryLower "order by" ||
  jsIncludes queryLower "arrange"

/-- `isSummarizeQuery` from the source. -/
def isSummarizeQuery (queryLower : String) : Bool :=
  jsIncludes queryLower "summarize" ||
  jsIncludes queryLower "summary" ||
  jsIncludes queryLower "stats" ||
  jsIncludes queryLower "statistics" ||
  jsIncludes queryLower "count"

/-! ## The column/value resolver -/

/-- The fixed vocabulary `commonValues` of the source. -/
def commonValues : List String := ["ok", "not ok", "yes", "no", "true", "false", "pass", "fail"]

/-- `commonValues.filter(val => queryLower.includes(val))` from the source. -/
def valueMatches (queryLower : String) : List String :=
  commonValues.filter (fun val => jsIncludes queryLower val)

/-- Column set of a table, as in the source: the keys of the first row, or
empty when there are no rows. -/
def dataColumns (data : List Row) : List String :=
  match data with
  | [] => []
  | r :: _ => r.map Prod.fst

/-- The source's first-match column scan: the first column whose lower-cased
name occurs as a substring of the query, or `""` when none does. -/
def findTargetColumn (columns : List String) (queryLower : String) : String :=
  match columns.find? (fun col => jsIncludes queryLower (jsToLower col)) with
  | some col => col
  | none => ""

/-! ## The filter, sort and summary stages -/

/-- The default "plain search" pass of `processExcelQuery`: keep rows where
some value, stringified and lower-cased, contains the lower-cased query. -/
def baselineRows (data : List Row) (queryLower : String) : List Row :=
  data.filter (fun row =>
    (row.map Prod.snd).any (fun value => jsIncludes (jsToLower value.toText) queryLower))

/-- The filter-intent block of `processExcelQuery`.  When a vocabulary value
is matched, the rows of the FULL table (not the baseline) equal to it —
case-insensitively, on the resolved column or on any column — are selected;
when only a column is matched, rows with a present non-empty value in it are
selected; otherwise the baseline passes through. -/
def applyFilterStage (data : List Row) (queryLower : String) (baseline : List Row) : List Row :=
  if isFilterQuery queryLower = false then baseline
  else
    let columns := dataColumns data
    let targetColumn := findTargetColumn columns queryLower
    match valueMatches queryLower with
    | targetValue :: _ =>
      if targetColumn = "" then
        data.filter (fun row =>
          row.any (fun kv => jsToLower kv.2.toText == targetValue))
      else
        data.filter (fun row => jsToLower (jsGet row targetColumn).toText == targetValue)
    | [] =>
      if targetColumn = "" then baseline
      else
        data.filter (fun row =>
          decide (jsGet row targetColumn ≠ Value.absent ∧ jsGet row targetColumn ≠ Value.str ""))

/-- The source's string comparison in the sort comparator is
`String.prototype.localeCompare`, whose ordering is locale/implementation
defined; it is modelled here as code-point lexicographic comparison (no claim
settled below depends on this branch of the comparator). -/
def localeCompareModel (a b : String) : Int :=
  match compare a b with
  | Ordering.lt => -1
  | Ordering.eq => 0
  | Ordering.gt => 1

/-- The sort comparator of `processExcelQuery`: numeric difference when both
values convert to numbers, string comparison otherwise; the descending flag
swaps the operands. -/
def rowCompare (sortColumn : String) (isDescending : Bool) (a b : Row) : Frac :=
  let valA := jsGet a sortColumn
  let valB := jsGet b sortColumn
  match jsToNumber valA, jsToNumber valB with
  | some nA, some nB => if isDescending then Frac.sub nB nA else Frac.sub nA nB
  | _, _ =>
    if isDescending then Frac.ofInt (localeCompareModel valB.toText valA.toText)
    else Frac.ofInt (localeCompareModel valA.toText valB.toText)

/-- The sort-intent block of `processExcelQuery`: when a sort column resolves,
stably sort the current rows by the comparator; otherwise pass through. -/
def applySortStage (data : List Row) (queryLower : String) (rows : List Row) : List Row :=
  if isSortQuery queryLower = false then rows
  else
    let sortColumn := findTargetColumn (dataColumns data) queryLower
    if sortColumn = "" then rows
    else
      let isDescending :=
        jsIncludes queryLower "descending" ||
        jsIncludes queryLower "desc" ||
        jsIncludes queryLower "high to low" ||
        jsIncludes queryLower "largest" ||
        jsIncludes queryLower "highest"
      stableSort (fun a b => Frac.isNeg (rowCompare sortColumn isDescending a b)) rows

/-- `Math.min(...values)` over a non-empty list (0 on the empty list, which
the source never reaches). -/
def listMin : List Frac → Frac
  | [] => Frac.ofNat 0
  | x :: xs => xs.foldl Frac.fmin x

/-- `Math.max(...values)` over a non-empty list. -/
def listMax : List Frac → Frac
  | [] => Frac.ofNat 0
  | x :: xs => xs.foldl Frac.fmax x

/-- `values.reduce((a, b) => a + b, 0)`. -/
def listSum (l : List Frac) : Frac := l.foldl Frac.add (Frac.ofNat 0)

/-- The numeric conversion the summary applies to one column of one row. -/
def parseCell (col : String) (row : Row) : Option Frac := jsToNumber (jsGet row col)

/-- The numeric-statistics line of `generateSummary` for one column: if some
row's value converts to a number, map all rows through `Number`, drop the
`NaN`s, and format min/max/average of the remainder; otherwise no line. -/
def numericLine (rows : List Row) (col : String) : Option String :=
  if rows.any (fun row => (parseCell col row).isSome) then
    let values := (rows.map (parseCell col)).filterMap id
    if values.length > 0 then
      some (col ++ ": Min=" ++ qToFixed2 (listMin values) ++
        ", Max=" ++ qToFixed2 (listMax values) ++
        ", Avg=" ++ qToFixed2 (Frac.div (listSum values) (Frac.ofNat values.length)))
    else none
  else none

/-- Increment the count of `v` in an insertion-ordered frequency table,
modelling `counts[val] = (counts[val] || 0) + 1` on a JavaScript object. -/
def bumpCount : List (String × Nat) → String → List (String × Nat)
  | [], v => [(v, 1)]
  | (k, c) :: rest, v =>
    if k == v then (k, c + 1) :: rest else (k, c) :: bumpCount rest v

/-- The categorical-distribution line of `generateSummary` for one column:
when the column has at most 10 distinct stringified values, report the top 3
by descending frequency (ties in first-encountered order, as JavaScript's
stable sort leaves them). -/
def categoricalLine (rows : List Row) (col : String) : Option String :=
  let strs := rows.map (fun row => (jsGet row col).toText)
  if strs.dedup.length ≤ 10 then
    let counts := strs.foldl bumpCount []
    let top := (stableSort (fun a b => decide (b.2 < a.2)) counts).take 3
    match top with
    | [] => none
    | _ :: _ =>
      some (col ++ " distribution: " ++
        joinWith ", " (top.map (fun p =>
          p.1 ++ ": " ++ toString p.2 ++ " (" ++
          qToFixed1 (Frac.mul (Frac.div (Frac.ofNat p.2) (Frac.ofNat rows.length))
            (Frac.ofNat 100)) ++ "%)")))
  else none

/-- The summary lines built by `generateSummary` once triggered: total row
count, then the numeric lines, then the categorical lines, all in the column
order of the first row. -/
def summaryLines (rows : List Row) : List String :=
  let columns := dataColumns rows
  ("Total rows: " ++ toString rows.length) ::
    (columns.filterMap (numericLine rows) ++ columns.filterMap (categoricalLine rows))

/-- `generateSummary` from the source: the no-data message on an empty row
list; the joined summary lines when summarization is forced or more than 10
rows remain; the empty string otherwise. -/
def generateSummary (rows : List Row) (forceSummarize : Bool) : String :=
  if rows = [] then "No data available for summary."
  else if forceSummarize = true ∨ 10 < rows.length then
    joinWith "<br>" (summaryLines rows)
  else ""

/-- The result record returned by `processExcelQuery`. -/
structure QueryResult where
  rows : List Row
  summary : String
deriving DecidableEq

/-- `processExcelQuery` from the source: guard against a missing table or
empty query, lower-case the query, compute the baseline plain-search rows,
then run the filter, sort and summary stages in order. -/
def processExcelQuery (excelData : Option (List Row)) (query : String) : QueryResult :=
  match excelData with
  | none => { rows := [], summary := "No data available" }
  | some data =>
    if query = "" then { rows := [], summary := "No data available" }
    else
      let queryLower := jsToLower query
      let matching0 := baselineRows data queryLower
      let matching1 := applyFilterStage data queryLower matching0
      let matching2 := applySortStage data queryLower matching1
      { rows := matching2, summary := generateSummary matching2 (isSummarizeQuery queryLower) }

/-! ## Helper lemmas about the string and sorting primitives -/

theorem charsStartsWith_iff (s p : List Char) : charsStartsWith s p = true ↔ p <+: s := by
  induction p generalizing s with
  | nil => cases s <;> simp [charsStartsWith]
  | cons q qs ih =>
    cases s with
    | nil => simp [charsStartsWith]
    | cons c cs =>
      simp only [charsStartsWith, Bool.and_eq_true, beq_iff_eq, ih, List.cons_prefix_cons]
      constructor
      · rintro ⟨h1, h2⟩; exact ⟨h1.symm, h2⟩
      · rintro ⟨h1, h2⟩; exact ⟨h1.symm, h2⟩

theorem charsContains_iff (s p : List Char) : charsContains s p = true ↔ p <:+: s := by
  induction s with
  | nil => cases p <;> simp [charsContains, charsStartsWith]
  | cons c cs ih =>
    simp [charsContains, Bool.or_eq_true, charsStartsWith_iff, ih, List.infix_cons_iff]

theorem jsIncludes_ok_of_not_ok {s : String} (h : jsIncludes s "not ok" = true) :
    jsIncludes s "ok" = true := by
  have h1 : ("not ok".data : List Char) <:+: s.data := (charsContains_iff _ _).mp h
  have h2 : ("ok".data : List Char) <:+: "not ok".data := by decide
  exact (charsContains_iff _ _).mpr (h2.trans h1)

theorem mem_stableInsert {α : Type} (lt : α → α → Bool) (x y : α) (l : List α) :
    y ∈ stableInsert lt x l ↔ y = x ∨ y ∈ l := by
  induction l with
  | nil => simp [stableInsert]
  | cons z zs ih =>
    simp only [stableInsert]
    split
    · simp [List.mem_cons]
    · simp only [List.mem_cons, ih]
      tauto

theorem mem_stableSort {α : Type} (lt : α → α → Bool) (y : α) (l : List α) :
    y ∈ stableSort lt l ↔ y ∈ l := by
  suffices h : ∀ acc, (y ∈ List.foldl (fun acc x => stableInsert lt x acc) acc l ↔
      y ∈ acc ∨ y ∈ l) by
    simpa [stableSort] using h []
  induction l with
  | nil => simp
  | cons z zs ih =>
    intro acc
    simp only [List.foldl_cons, ih, mem_stableInsert, List.mem_cons]
    tauto

theorem mem_applySortStage {data : List Row} {ql : String} {rows : List Row} {row : Row}
    (h : row ∈ applySortStage data ql rows) : row ∈ rows := by
  simp only [applySortStage] at h
  split at h
  · exact h
  · split at h
    · exact h
    · exact (mem_stableSort _ _ _).mp h

theorem filterMap_parse_filter (rows : List Row) (col : String) :
    ((rows.filter (fun row => (parseCell col row).isSome)).map (parseCell col)).filterMap id
      = (rows.map (parseCell col)).filterMap id := by
  induction rows with
  | nil => rfl
  | cons r rs ih =>
    cases h : parseCell col r with
    | none => simp [List.filter_cons, h, ih]
    | some v => simp [List.filter_cons, h, ih]

theorem any_parse_filter (rows : List Row) (col : String) :
    (rows.filter (fun row => (parseCell col row).isSome)).any
        (fun row => (parseCell col row).isSome)
      = rows.any (fun row => (parseCell col row).isSome) := by
  simp [List.any_filter]

theorem any_snd_map (row : Row) (p : Value → Bool) :
    (row.map Prod.snd).any p = row.any (fun kv => p kv.2) := by
  induction row with
  | nil => rfl
  | cons kv rest ih => simp [List.any_cons, ih]

theorem numericLine_filter (rows : List Row) (col : String) :
    numericLine rows col
      = numericLine (rows.filter (fun row => (parseCell col row).isSome)) col := by
  simp only [numericLine, any_parse_filter, filterMap_parse_filter]

/-! ## Concrete tables used by the claims -/

/-- An 11-row table (column `v` holding the strings "1" … "11") for the
summarization scenario. -/
def c2table : List Row := (List.range 11).map (fun i => [("v", Value.str (toString (i + 1)))])

/-- The sort-scenario table: column `date` holding "2023", "2021", "2022". -/
def c3table : List Row :=
  [[("date", Value.str "2023")], [("date", Value.str "2021")], [("date", Value.str "2022")]]

/-- The filter-scenario table: column `status` holding OK, OK, FAIL. -/
def c4table : List Row :=
  [[("id", Value.str "r1"), ("status", Value.str "OK")],
   [("id", Value.str "r2"), ("status", Value.str "OK")],
   [("id", Value.str "r3"), ("status", Value.str "FAIL")]]

/-- A one-numeric-column table with values 10, 20, "abc", 30. -/
def c6table : List Row :=
  [[("n", Value.num (Frac.ofNat 10))], [("n", Value.num (Frac.ofNat 20))],
   [("n", Value.str "abc")], [("n", Value.num (Frac.ofNat 30))]]

/-- A small two-row table for the plain-search witness. -/
def c5table : List Row := [[("k", Value.str "ALPHA ROW")], [("k", Value.str "beta")]]

/-- The predicate describing the amended claim C1: the returned row's target
column (or, when no column resolved, some column) is case-insensitively
exactly equal to the resolved vocabulary value. -/
def filterEqMatch (targetColumn targetValue : String) (row : Row) : Bool :=
  if targetColumn = "" then
    row.any (fun kv => jsToLower kv.2.toText == targetValue)
  else jsToLower (jsGet row targetColumn).toText == targetValue

/-- The plain-search set of rows, written from the specification's words: the
rows in which some column's value, converted to text and case-folded,
contains the case-folded query as a substring, in original order. -/
def specPlainSearch (data : List Row) (q : String) : List Row :=
  data.filter (fun row =>
    row.any (fun kv => jsIncludes (jsToLower kv.2.toText) (jsToLower q)))

/-! ## Claim C1 -/

/-- Claim C1 is false as stated: on the one-row table whose `status` column
holds "OK", the query "show ok" has filter intent and resolves the vocabulary
value "ok", and the row is returned even though none of its values contains
the case-folded query "show ok" as a substring — the equality filter is
recomputed from the full table, so the result is not a restriction of the
baseline plain-search rows (which are empty here). -/
theorem C1_counterexample :
    isFilterQuery (jsToLower "show ok") = true ∧
    valueMatches (jsToLower "show ok") = ["ok"] ∧
    (processExcelQuery (some [[("status", Value.str "OK")]]) "show ok").rows
      = [[("status", Value.str "OK")]] ∧
    baselineRows [[("status", Value.str "OK")]] (jsToLower "show ok") = [] := by
  decide

/-- Amended claim C1: for every table and every non-empty query with filter
intent and a resolved vocabulary value, every returned row has the target
column (or, when no column resolved, some column) case-insensitively exactly
equal to the resolved value; the equality filter is applied to the whole
table, replacing (not restricting) the baseline plain-search rows. -/
theorem C1_amended (data : List Row) (q : String) (v : String) (vs : List String)
    (hq : ¬ q = "") (hf : isFilterQuery (jsToLower q) = true)
    (hv : valueMatches (jsToLower q) = v :: vs) :
    ∀ row ∈ (processExcelQuery (some data) q).rows,
      filterEqMatch (findTargetColumn (dataColumns data) (jsToLower q)) v row = true := by
  intro row hrow
  simp only [processExcelQuery, if_neg hq] at hrow
  have hrow1 : row ∈ applyFilterStage data (jsToLower q) (baselineRows data (jsToLower q)) :=
    mem_applySortStage hrow
  simp only [applyFilterStage, hf, hv] at hrow1
  by_cases htc : findTargetColumn (dataColumns data) (jsToLower q) = ""
  · simp only [htc, if_pos rfl, Bool.false_eq_true, if_false] at hrow1
    simp only [filterEqMatch, htc, if_pos rfl]
    exact (List.mem_filter.mp hrow1).2
  · simp only [if_neg htc, Bool.false_eq_true, if_false] at hrow1
    simp only [filterEqMatch, if_neg htc]
    exact (List.mem_filter.mp hrow1).2

/-- Witness for the amended claim C1 at the counterexample input. -/
theorem C1_amended_witness :
    filterEqMatch
      (findTargetColumn (dataColumns [[("status", Value.str "OK")]]) (jsToLower "show ok"))
      "ok" [("status", Value.str "OK")] = true :=
  C1_amended [[("status", Value.str "OK")]] "show ok" "ok" []
    (by decide) (by decide) (by decide) [("status", Value.str "OK")] (by decide)

/-! ## Claim C2 -/

/-- Claim C2 describes the intended behavior, but the code diverges: on an
11-row table none of whose cells contains the text "summarize the data", the
query "Summarize the data" first runs the universal plain-search pass with
the whole query string, which matches no row, so the code returns zero rows
with the summary "No data available for summary." instead of a summary
beginning with "Total rows: 11". -/
theorem C2_code_result :
    c2table.length = 11 ∧
    processExcelQuery (some c2table) "Summarize the data"
      = { rows := [], summary := "No data available for summary." } ∧
    jsStartsWith (processExcelQuery (some c2table) "Summarize the data").summary
      "Total rows: 11" = false := by
  decide

/-! ## Claim C3 -/

/-- Claim C3 describes the intended behavior, but the code diverges: for the
query "Sort by date descending" on the table with `date` values "2023",
"2021", "2022", the universal plain-search pass keeps only rows containing
the whole query text — none — so the code returns zero rows rather than the
three rows in descending order.  The second conjunct shows the sort stage in
isolation would indeed produce the claimed descending order if it were
reached with the table's rows. -/
theorem C3_code_result :
    processExcelQuery (some c3table) "Sort by date descending"
      = { rows := [], summary := "No data available for summary." } ∧
    applySortStage c3table (jsToLower "Sort by date descending") c3table
      = [[("date", Value.str "2023")], [("date", Value.str "2022")],
         [("date", Value.str "2021")]] := by
  decide

/-! ## Claim C4 -/

/-- Claim C4: on the table whose `status` column holds OK, OK, FAIL, the query
"Show me all rows where status is OK" resolves the target column `status` and
the vocabulary value "ok", and exactly the two rows whose `status` equals
"ok" case-insensitively are returned. -/
theorem C4_status_filter :
    findTargetColumn (dataColumns c4table) (jsToLower "Show me all rows where status is OK")
      = "status" ∧
    valueMatches (jsToLower "Show me all rows where status is OK") = ["ok"] ∧
    (processExcelQuery (some c4table) "Show me all rows where status is OK").rows
      = [[("id", Value.str "r1"), ("status", Value.str "OK")],
         [("id", Value.str "r2"), ("status", Value.str "OK")]] := by
  decide

/-! ## Claim C5 -/

/-- Claim C5 is false as stated for the empty query: "" contains none of the
filter, sort, or summarize keywords, yet the code's input guard returns zero
rows while the substring-match filter over all columns (an empty search term
is contained in every text) keeps every row. -/
theorem C5_counterexample :
    isFilterQuery (jsToLower "") = false ∧
    isSortQuery (jsToLower "") = false ∧
    isSummarizeQuery (jsToLower "") = false ∧
    (processExcelQuery (some [[("a", Value.str "x")]]) "").rows = [] ∧
    specPlainSearch [[("a", Value.str "x")]] "" = [[("a", Value.str "x")]] := by
  decide

/-- Amended claim C5: for every table and every NON-EMPTY query containing
none of the filter, sort, or summarize intent keywords, the returned rows
equal the substring-match filter over all columns, original order
preserved. -/
theorem C5_amended (data : List Row) (q : String) (hq : ¬ q = "")
    (hf : isFilterQuery (jsToLower q) = false) (hs : isSortQuery (jsToLower q) = false)
    (_hz : isSummarizeQuery (jsToLower q) = false) :
    (processExcelQuery (some data) q).rows = specPlainSearch data q := by
  simp only [processExcelQuery, if_neg hq]
  simp only [applySortStage, hs, if_true]
  simp only [applyFilterStage, hf, if_true]
  unfold baselineRows specPlainSearch
  congr 1
  funext row
  exact any_snd_map row _

/-- Witness for the amended claim C5: the keyword-free query "alpha" on a
two-row table returns exactly the substring-matching row. -/
theorem C5_amended_witness :
    (processExcelQuery (some c5table) "alpha").rows = specPlainSearch c5table "alpha" :=
  C5_amended c5table "alpha" (by decide) (by decide) (by decide) (by decide)

/-! ## Claim C6 -/

/-- Claim C6: the per-column numeric summary line is computed over the
numeric-parseable subset only — removing every row whose value for the column
fails numeric conversion leaves the emitted line unchanged, so non-numeric
and absent values are excluded rather than treated as zero — and on the
column with values 10, 20, "abc", 30 the emitted line is
"n: Min=10.00, Max=30.00, Avg=20.00" (average over denominator 3). -/
theorem C6_numeric_subset :
    (∀ (rows : List Row) (col : String),
      numericLine rows col
        = numericLine (rows.filter (fun row => (parseCell col row).isSome)) col) ∧
    numericLine c6table "n" = some "n: Min=10.00, Max=30.00, Avg=20.00" ∧
    "n: Min=10.00, Max=30.00, Avg=20.00" ∈ summaryLines c6table :=
  ⟨fun rows col => numericLine_filter rows col, by decide, by decide⟩

/-! ## Claim C7 -/

/-- Claim C7 is false as stated for the empty row sequence: `generateSummary`
on zero rows returns the non-empty text "No data available for summary.",
not the empty string. -/
theorem C7_counterexample :
    generateSummary ([] : List Row) false = "No data available for summary." ∧
    ¬ generateSummary ([] : List Row) false = "" := by
  decide

/-- Amended claim C7: for every NON-EMPTY row sequence, if the summary
trigger does not hold (summarize intent false and at most 10 rows) the
summary text is the empty string; the empty row sequence instead yields the
fixed text "No data available for summary.". -/
theorem C7_amended :
    (∀ (rows : List Row), ¬ rows = [] → rows.length ≤ 10 →
      generateSummary rows false = "") ∧
    (∀ (f : Bool), generateSummary ([] : List Row) f = "No data available for summary.") := by
  constructor
  · intro rows h1 h2
    have hc : ¬ (false = true ∨ 10 < rows.length) := by
      rintro (h | h)
      · exact Bool.false_ne_true h
      · omega
    simp only [generateSummary, if_neg h1, if_neg hc]
  · intro f
    rfl

/-- Witness for the amended claim C7 on a one-row table without summarize
intent. -/
theorem C7_amended_witness :
    generateSummary [[("a", Value.str "x")]] false = "" :=
  C7_amended.1 [[("a", Value.str "x")]] (by decide) (by decide)

/-! ## Claim C9 -/

/-- Claim C9: for every query, an absent table yields the fixed result with
empty rows and the summary "No data available", and a table all of whose
rows have zero columns (which covers the zero-row empty table) yields empty
rows and a summary text beginning with "No data available"; the embedding is
a total function, so no input can raise. -/
theorem C9_no_data (q : String) (data : List Row) (hdata : ∀ row ∈ data, row = ([] : Row)) :
    processExcelQuery none q = { rows := [], summary := "No data available" } ∧
    (processExcelQuery (some data) q).rows = [] ∧
    jsStartsWith (processExcelQuery (some data) q).summary "No data available" = true := by
  refine ⟨rfl, ?_⟩
  by_cases hq : q = ""
  · subst hq
    have hres : processExcelQuery (some data) ""
        = { rows := [], summary := "No data available" } := by
      simp [processExcelQuery]
    rw [hres]
    exact ⟨rfl, by decide⟩
  · have hcols : dataColumns data = [] := by
      cases data with
      | nil => rfl
      | cons r rs =>
        have hr : r = [] := hdata r (List.mem_cons_self r rs)
        simp [dataColumns, hr]
    have htc : findTargetColumn (dataColumns data) (jsToLower q) = "" := by
      rw [hcols]; rfl
    have hbase : baselineRows data (jsToLower q) = [] := by
      apply List.filter_eq_nil_iff.mpr
      intro row hrow
      rw [hdata row hrow]
      simp
    have hfilter : applyFilterStage data (jsToLower q) [] = [] := by
      simp only [applyFilterStage, htc, if_pos rfl]
      split
      · rfl
      · cases hvm : valueMatches (jsToLower q) with
        | nil => rfl
        | cons v vs =>
          apply List.filter_eq_nil_iff.mpr
          intro row hrow
          rw [hdata row hrow]
          simp
    have hsort : applySortStage data (jsToLower q) [] = [] := by
      simp only [applySortStage, htc, if_pos rfl]
      split
      · rfl
      · rfl
    constructor
    · simp only [processExcelQuery, if_neg hq]
      rw [hbase, hfilter, hsort]
    · simp only [processExcelQuery, if_neg hq]
      rw [hbase, hfilter, hsort]
      have hgs : generateSummary [] (isSummarizeQuery (jsToLower q))
          = "No data available for summary." := rfl
      rw [hgs]
      decide

/-- Witness for claim C9 at the query "anything" on the empty table. -/
theorem C9_no_data_witness :
    processExcelQuery none "anything" = { rows := [], summary := "No data available" } ∧
    (processExcelQuery (some ([] : List Row)) "anything").rows = [] ∧
    jsStartsWith (processExcelQuery (some ([] : List Row)) "anything").summary
      "No data available" = true :=
  C9_no_data "anything" [] (by decide)

/-! ## Claim C10 -/

/-- Claim C10: for every query with filter intent whose case-folded text
contains "not ok", the resolved vocabulary value (the head of the value-match
list) is "ok" — because "ok" occurs inside "not ok" and precedes it in the
fixed vocabulary scan order — and a cell holding exactly "not ok" fails the
resulting case-insensitive equality test against "ok". -/
theorem C10_not_ok (q : String) (_hf : isFilterQuery (jsToLower q) = true)
    (h : jsIncludes (jsToLower q) "not ok" = true) :
    (valueMatches (jsToLower q)).head? = some "ok" ∧
    (jsToLower (jsGet [("status", Value.str "not ok")] "status").toText == "ok") = false := by
  refine ⟨?_, by decide⟩
  have hok : jsIncludes (jsToLower q) "ok" = true := jsIncludes_ok_of_not_ok h
  simp [valueMatches, commonValues, List.filter_cons, hok]

/-- Witness for claim C10 at the query "show not ok". -/
theorem C10_not_ok_witness :
    (valueMatches (jsToLower "show not ok")).head? = some "ok" ∧
    (jsToLower (jsGet [("status", Value.str "not ok")] "status").toText == "ok") = false :=
  C10_not_ok "show not ok" (by decide) (by decide)

end DatasheetAI
